import Mathlib

/-!
Verification of the touchless interaction engine of SignAssist.

This file gives a shallow embedding of the core state machines of the
repository and proves properties about them:

* the sequence buffer and gesture-classifier adapter
  (src/hooks/useGestureClassifier.ts),
* the mode state machine (src/hooks/useModeSwitcher.ts),
* the pointer navigator (useHandNavigation, second half of the same file),
* the spelling pipeline (the letter-streak logic of the kiosk page's
  onGestureDetected callback together with src/hooks/useWordBuilder.ts),
* the heuristic pose detectors (isClosedFist, isThumbsUp,
  detectGestureTarget).

Conventions of the embedding:

* JavaScript numbers are modelled as rationals; timestamps
  (performance.now, Date.now) as integers (milliseconds).
* React useRef/useState cells of a hook are collected into one state
  structure; a callback that mutates them becomes a function from state
  to state.
* External collaborators (the TensorFlow model, document.elementFromPoint,
  window dimensions) are parameters of the corresponding functions.
* Fallible or absent values (null checks) are modelled with Option.
-/

namespace SignAssist

/-- The three interaction modes (type InteractionMode in src/types). -/
inductive InteractionMode where
  | sign
  | spelling
  | navigate
deriving DecidableEq, Repr, Inhabited

/-- One tracked hand landmark (interface Landmark in src/types). -/
structure Landmark where
  x : ℚ
  y : ℚ
  z : ℚ
deriving DecidableEq, Repr, Inhabited

/-- Handedness label of a tracked hand. -/
inductive Handedness where
  | left
  | right
deriving DecidableEq, Repr, Inhabited

/-- Recognised hand data for a single frame (interface HandFrame in
src/types): an ordered list of landmarks plus metadata. -/
structure HandFrame where
  landmarks : List Landmark
  handedness : Handedness
  timestamp : ℤ
deriving DecidableEq, Repr, Inhabited

/-- Result from the gesture classifier (interface GestureResult). -/
structure GestureResult where
  label : String
  confidence : ℚ
  source : String
deriving DecidableEq, Repr, Inhabited

/-- DEFAULT_CONFIG.sequenceLength (src/config): length L of the sliding
window fed to the LSTM. -/
def sequenceLength : ℕ := 30

/-- DEFAULT_CONFIG.confidenceThreshold (src/config). -/
def confidenceThreshold : ℚ := 0.45

/-- handFrameToFeatures (useGestureClassifier.ts): flatten the landmark
list of one hand into the per-frame feature vector x0,y0,z0,x1,... -/
def handFrameToFeatures (hand : HandFrame) : List ℚ :=
  (hand.landmarks.map fun lm => [lm.x, lm.y, lm.z]).flatten

/-- pushFrame (useGestureClassifier.ts lines 119-133): ignore empty
frames, otherwise append the feature vector of the first detected hand
and, when the buffer exceeds seqLen, keep only the last seqLen entries
(buffer.slice(-sequenceLength)). -/
def pushFrame (seqLen : ℕ) (buffer : List (List ℚ)) (hands : List HandFrame) :
    List (List ℚ) :=
  match hands with
  | [] => buffer
  | hand :: _ =>
    let buf := buffer ++ [handFrameToFeatures hand]
    if seqLen < buf.length then buf.drop (buf.length - seqLen) else buf

/-! ## Heuristic pose detectors (useModeSwitcher.ts lines 17-68) -/

/-- isClosedFist (useModeSwitcher.ts lines 17-31): all five fingertips
curled.  Guarded by the landmark count so that malformed hands never
index past the end of the list; the accesses use getD, whose default is
unreachable once the guard has passed. -/
def isClosedFist (hand : HandFrame) : Bool :=
  let lm := hand.landmarks
  if lm.length < 21 then false
  else
    let wrist := lm.getD 0 default
    let thumbCurled : Bool :=
      |(lm.getD 4 default).x - wrist.x| < |(lm.getD 3 default).x - wrist.x|
    let indexCurled : Bool := (lm.getD 8 default).y > (lm.getD 6 default).y
    let middleCurled : Bool := (lm.getD 12 default).y > (lm.getD 10 default).y
    let ringCurled : Bool := (lm.getD 16 default).y > (lm.getD 14 default).y
    let pinkyCurled : Bool := (lm.getD 20 default).y > (lm.getD 18 default).y
    thumbCurled && indexCurled && middleCurled && ringCurled && pinkyCurled

/-- isThumbsUp (useModeSwitcher.ts lines 36-47): thumb tip extended
upward, all other fingers curled; same landmark-count guard. -/
def isThumbsUp (hand : HandFrame) : Bool :=
  let lm := hand.landmarks
  if lm.length < 21 then false
  else
    let thumbExtended : Bool := (lm.getD 4 default).y < (lm.getD 3 default).y
    let indexCurled : Bool := (lm.getD 8 default).y > (lm.getD 6 default).y
    let middleCurled : Bool := (lm.getD 12 default).y > (lm.getD 10 default).y
    let ringCurled : Bool := (lm.getD 16 default).y > (lm.getD 14 default).y
    let pinkyCurled : Bool := (lm.getD 20 default).y > (lm.getD 18 default).y
    thumbExtended && indexCurled && middleCurled && ringCurled && pinkyCurled

/-- detectGestureTarget (useModeSwitcher.ts lines 55-68): the two-hand
pose combination, or none when fewer than two hands are present. -/
def detectGestureTarget (hands : List HandFrame) : Option InteractionMode :=
  match hands with
  | h0 :: h1 :: _ =>
    let h0Fist := isClosedFist h0
    let h1Fist := isClosedFist h1
    let h0Thumb := isThumbsUp h0
    let h1Thumb := isThumbsUp h1
    if h0Fist && h1Fist then some .navigate
    else if h0Thumb && h1Thumb then some .spelling
    else if (h0Fist && h1Thumb) || (h0Thumb && h1Fist) then some .sign
    else none
  | _ => none

/-! ## Mode state machine (useModeSwitcher.ts lines 70-176) -/

/-- HOLD_DURATION (ms) a gesture must be held to switch mode. -/
def HOLD_DURATION : ℤ := 1000

/-- TOGGLE_COOLDOWN (ms) after a switch before another can occur. -/
def TOGGLE_COOLDOWN : ℤ := 1500

/-- The mutable cells of useModeSwitcher collected into one state:
mode, holdProgress, isHolding (React state), and holdStartRef,
holdTargetRef, lastToggleRef (refs; the holdTarget React state always
mirrors holdTargetRef and is not duplicated here). -/
structure ModeState where
  mode : InteractionMode
  holdStart : Option ℤ
  holdTarget : Option InteractionMode
  holdProgress : ℚ
  isHolding : Bool
  lastToggle : ℤ
deriving DecidableEq, Repr

/-- Initial hook state: mode = initialMode, no hold, progress 0,
lastToggleRef initialised to 0. -/
def initModeState (initialMode : InteractionMode) : ModeState :=
  { mode := initialMode, holdStart := none, holdTarget := none,
    holdProgress := 0, isHolding := false, lastToggle := 0 }

/-- setModeManual (useModeSwitcher.ts lines 98-106): set the mode,
clear every hold cell, and record the switch time in lastToggleRef. -/
def setModeManual (s : ModeState) (target : InteractionMode) (now : ℤ) :
    ModeState :=
  let _ := s
  { mode := target, holdStart := none, holdTarget := none,
    holdProgress := 0, isHolding := false, lastToggle := now }

/-- Clearing of an active hold, as done in the cooldown and the
no-valid-gesture branches of checkModeGesture: the cells are reset only
when a hold was active (the code guards on holdStartRef to avoid
needless re-renders). -/
def clearHold (s : ModeState) : ModeState :=
  if s.holdStart.isSome then
    { s with holdStart := none, holdTarget := none,
             holdProgress := 0, isHolding := false }
  else s

/-- checkModeGesture (useModeSwitcher.ts lines 112-169), one call with
the current time and the hand frames.  The division in the progress
computation is written with mkRat, which agrees with elapsed divided by
HOLD_DURATION since HOLD_DURATION is the positive constant 1000. -/
def checkModeGesture (s : ModeState) (now : ℤ) (hands : List HandFrame) :
    ModeState :=
  if now - s.lastToggle < TOGGLE_COOLDOWN then
    clearHold s
  else
    match detectGestureTarget hands with
    | some target =>
      if target ≠ s.mode then
        let start : ℤ :=
          match s.holdStart, s.holdTarget with
          | some t0, some tg => if tg = target then t0 else now
          | _, _ => now
        let progress : ℚ := min (mkRat (now - start) 1000) 1
        if 1 ≤ progress then
          { mode := target, holdStart := none, holdTarget := none,
            holdProgress := 0, isHolding := false, lastToggle := now }
        else
          { s with holdStart := some start, holdTarget := some target,
                   holdProgress := progress, isHolding := true }
      else clearHold s
    | none => clearHold s

/-- One frame of the mode state machine, uncurried for folding over a
list of (timestamp, hands) calls. -/
def modeStep (s : ModeState) (c : ℤ × List HandFrame) : ModeState :=
  checkModeGesture s c.1 c.2

/-- The commit state written by a successful hold. -/
def commitState (target : InteractionMode) (now : ℤ) : ModeState :=
  { mode := target, holdStart := none, holdTarget := none,
    holdProgress := 0, isHolding := false, lastToggle := now }

/-- The mode-label routing of the kiosk page's onGestureDetected
callback (lines 79-90): labels mode_navigate / mode_spelling /
mode_sign switch immediately through setModeManual, guarded on the
target differing from the current mode; all other labels leave the mode
state machine untouched here. -/
def routeModeLabel (s : ModeState) (label : String) (now : ℤ) : ModeState :=
  if label = "mode_navigate" then
    if s.mode ≠ .navigate then setModeManual s .navigate now else s
  else if label = "mode_spelling" then
    if s.mode ≠ .spelling then setModeManual s .spelling now else s
  else if label = "mode_sign" then
    if s.mode ≠ .sign then setModeManual s .sign now else s
  else s

/-! ## Classifier adapter (useGestureClassifier.ts lines 136-182) -/

/-- The mutable cells of the classifier adapter that classify touches:
the sliding buffer (bufferRef) and the in-flight flag
(isClassifyingRef). -/
structure ClassifierState where
  buffer : List (List ℚ)
  inflight : Bool
deriving DecidableEq, Repr

/-- The scoring tail of classify: take the model's output distribution,
find the first index attaining the maximum (result.indexOf of Math.max),
reject an index outside the label set, and gate on
confidence >= confidenceThreshold.  An empty output yields none, as in
the source where the undefined confidence fails the gate. -/
def scoreOutput (labels : List String) (threshold : ℚ) (probs : List ℚ) :
    Option GestureResult :=
  match probs.max? with
  | none => none
  | some mx =>
    let maxIdx := probs.indexOf mx
    if labels.length ≤ maxIdx then none
    else if threshold ≤ mx then
      some { label := labels.getD maxIdx "", confidence := mx, source := "lstm" }
    else none

/-- classify (useGestureClassifier.ts lines 136-182).  The external
model is a parameter: none models modelRef.current === null, and a
model returning none models the predict call throwing (the catch
branch).  The guard returns null with the state untouched; past the
guard, isClassifyingRef is set and then cleared in the finally block,
so the returned state has inflight = false on success and on error.
The buffer is only read, never written.  The onGestureDetected callback
fires exactly when the returned option is some. -/
def classify (model : Option (List (List ℚ) → Option (List ℚ)))
    (labels : List String) (threshold : ℚ) (seqLen : ℕ)
    (s : ClassifierState) : Option GestureResult × ClassifierState :=
  match model with
  | none => (none, s)
  | some m =>
    if s.buffer.length < seqLen ∨ s.inflight = true then (none, s)
    else
      match m s.buffer with
      | none => (none, { s with inflight := false })
      | some probs => (scoreOutput labels threshold probs, { s with inflight := false })

/-! ## Pointer navigator (useHandNavigation, useModeSwitcher.ts file,
lines 198-341 of the concatenated source) -/

/-- PINCH_THRESHOLD: normalised thumb-tip to index-tip distance below
which a pinch is detected. -/
def PINCH_THRESHOLD : ℚ := 0.06

/-- CLICK_COOLDOWN (ms) between consecutive synthesized clicks. -/
def CLICK_COOLDOWN : ℤ := 600

/-- SMOOTH_FACTOR for exponential cursor smoothing. -/
def SMOOTH_FACTOR : ℚ := 0.25

/-- The mutable cells of useHandNavigation: the smoothing refs, the
initialised flag, lastClickTime, wasPinching, the hovered element
(modelled by an identifier of the DOM target), and the cursor snapshot
(cursorRef). -/
structure NavState where
  smoothX : ℚ
  smoothY : ℚ
  initialised : Bool
  lastClickTime : ℤ
  wasPinching : Bool
  hovered : Option String
  x : ℚ
  y : ℚ
  isPinching : Bool
  isHovering : Bool
  visible : Bool
deriving DecidableEq, Repr

/-- Initial navigation state: cursor at the origin, hidden, no hover,
no pinch, lastClickTime 0, not initialised. -/
def initNavState : NavState :=
  { smoothX := 0, smoothY := 0, initialised := false, lastClickTime := 0,
    wasPinching := false, hovered := none, x := 0, y := 0,
    isPinching := false, isHovering := false, visible := false }

/-- The disabled / no-hands branch of updateFromHands: hide the cursor
(clearing the pinch and hover snapshot only when it was visible, as the
code only rewrites cursorRef in that case), clear the hovered element,
and force a re-snap by dropping the initialised flag.  The wasPinching
ref is left untouched, exactly as in the source. -/
def navHandsLost (s : NavState) : NavState :=
  let s1 :=
    if s.visible then
      { s with visible := false, isPinching := false, isHovering := false }
    else s
  { s1 with hovered := none, initialised := false }

/-- updateFromHands (the per-frame pointer update).  External
collaborators are parameters: hitTest models
document.elementFromPoint(...).closest(selector) applied to the smoothed
cursor position, width and height model window.innerWidth and
window.innerHeight.  The returned option is the synthesized click (the
dispatched pointerdown/pointerup/click on the target), none when no
click fires.  The source compares the Euclidean distance
sqrt(dx^2+dy^2+dz^2) with PINCH_THRESHOLD; both sides being
nonnegative, this equals the squared comparison used here. -/
def updateFromHands (hitTest : ℚ → ℚ → Option String) (width height : ℚ)
    (s : NavState) (now : ℤ) (hands : List HandFrame) (isEnabled : Bool) :
    NavState × Option String :=
  match hands with
  | [] => (navHandsLost s, none)
  | hand :: _ =>
    if isEnabled = false then (navHandsLost s, none)
    else
      match hand.landmarks[8]?, hand.landmarks[4]? with
      | some indexTip, some thumbTip =>
        let rawX := (1 - indexTip.x) * width
        let rawY := indexTip.y * height
        let cx := if s.initialised = false then rawX
                  else s.smoothX + (rawX - s.smoothX) * (1 - SMOOTH_FACTOR)
        let cy := if s.initialised = false then rawY
                  else s.smoothY + (rawY - s.smoothY) * (1 - SMOOTH_FACTOR)
        let dx := thumbTip.x - indexTip.x
        let dy := thumbTip.y - indexTip.y
        let dz := thumbTip.z - indexTip.z
        let pinch : Bool := dx ^ 2 + dy ^ 2 + dz ^ 2 < PINCH_THRESHOLD ^ 2
        let navTarget := hitTest cx cy
        let click : Option String :=
          if pinch && !s.wasPinching then
            if CLICK_COOLDOWN < now - s.lastClickTime && navTarget.isSome then
              navTarget
            else none
          else none
        let lastClick := if click.isSome then now else s.lastClickTime
        ({ smoothX := cx, smoothY := cy, initialised := true,
           lastClickTime := lastClick, wasPinching := pinch,
           hovered := navTarget, x := cx, y := cy, isPinching := pinch,
           isHovering := navTarget.isSome, visible := true }, click)
      | _, _ => (s, none)

/-- A call to the navigator in which the first hand has both tips and
they are pinching: the squared tip distance is below the squared
threshold. -/
def pinchingCall (c : ℤ × List HandFrame) : Prop :=
  ∃ hand rest indexTip thumbTip,
    c.2 = hand :: rest ∧
    hand.landmarks[8]? = some indexTip ∧
    hand.landmarks[4]? = some thumbTip ∧
    (thumbTip.x - indexTip.x) ^ 2 + (thumbTip.y - indexTip.y) ^ 2 +
      (thumbTip.z - indexTip.z) ^ 2 < PINCH_THRESHOLD ^ 2

/-- Folding step for a run of enabled navigator frames, accumulating
every synthesized click. -/
def navRun (hitTest : ℚ → ℚ → Option String) (width height : ℚ)
    (p : NavState × List String) (c : ℤ × List HandFrame) :
    NavState × List String :=
  let r := updateFromHands hitTest width height p.1 c.1 c.2 true
  (r.1, p.2 ++ r.2.toList)

/-! ## Spelling pipeline: letter streak (kiosk page onGestureDetected,
lines 93-121) and word builder addLetter (useWordBuilder.ts lines
121-146) -/

/-- SPELLING_CONFIDENCE_THRESHOLD: stricter gate for letters. -/
def SPELLING_CONFIDENCE_THRESHOLD : ℚ := 0.75

/-- LETTER_STREAK_REQUIRED: consecutive identical detections needed. -/
def LETTER_STREAK_REQUIRED : ℕ := 3

/-- LETTER_STREAK_WINDOW_MS: maximal spacing inside a streak. -/
def LETTER_STREAK_WINDOW_MS : ℤ := 900

/-- MIN_LETTER_GAP_MS (useWordBuilder.ts): minimum gap between
accepting the exact same letter twice. -/
def MIN_LETTER_GAP_MS : ℤ := 1200

/-- letterStreakRef of the kiosk page: the transient vote counter. -/
structure LetterStreak where
  label : String
  count : ℕ
  lastTime : ℤ
deriving DecidableEq, Repr

/-- The spelling-relevant cells of the kiosk page and useWordBuilder:
the streak ref, the last accepted letter with its acceptance time
(lastLetterRef, lastLetterTimeRef), and the accumulated letters
(lettersRef). -/
structure SpellState where
  streak : LetterStreak
  lastLetter : String
  lastLetterTime : ℤ
  letters : List String
deriving DecidableEq, Repr

/-- Initial spelling state: empty streak, no accepted letter. -/
def initSpellState : SpellState :=
  { streak := { label := "", count := 0, lastTime := 0 },
    lastLetter := "", lastLetterTime := 0, letters := [] }

/-- Removal of the first occurrence of pat from a character list, the
semantics of the JavaScript expression s.replace(pat, "") with a string
pattern (which replaces only the first occurrence). -/
def stripFirst (pat : List Char) : List Char → List Char
  | [] => []
  | c :: rest =>
    if pat.isPrefixOf (c :: rest) then (c :: rest).drop pat.length
    else c :: stripFirst pat rest

/-- The letter-character extraction of addLetter:
letterLabel.replace("letter_", "").toUpperCase(), rendered on the
underlying character lists so that it evaluates by kernel reduction. -/
def charOfLabel (label : String) : String :=
  String.mk ((stripFirst "letter_".data label.data).map Char.toUpper)

/-- addLetter (useWordBuilder.ts lines 121-146): extract the letter
character, require it to be a single character, debounce the exact same
letter inside MIN_LETTER_GAP_MS (which only restarts the countdown and
leaves all cells untouched), otherwise append it and record it as the
last accepted letter with the current time.  The auto-finalize
countdown has no effect on these cells and is not modelled. -/
def addLetter (s : SpellState) (letterLabel : String) (now : ℤ) : SpellState :=
  let char := charOfLabel letterLabel
  if char.length ≠ 1 then s
  else if char = s.lastLetter ∧ now - s.lastLetterTime < MIN_LETTER_GAP_MS then s
  else { s with lastLetter := char, lastLetterTime := now,
                letters := s.letters ++ [char] }

/-- The letter branch of the kiosk page's onGestureDetected (lines
93-121), for a classification event carrying a letter_* label while the
mode is spelling: reject below the spelling threshold (a transient
notice; the streak is left untouched), otherwise extend or restart the
streak, and on reaching LETTER_STREAK_REQUIRED clear the streak and
hand the label to addLetter. -/
def onLetterDetected (s : SpellState) (label : String) (confidence : ℚ)
    (now : ℤ) : SpellState :=
  if confidence < SPELLING_CONFIDENCE_THRESHOLD then s
  else
    let newCount : ℕ :=
      if label = s.streak.label ∧ now - s.streak.lastTime ≤ LETTER_STREAK_WINDOW_MS
      then s.streak.count + 1
      else 1
    if LETTER_STREAK_REQUIRED ≤ newCount then
      addLetter { s with streak := { label := "", count := 0, lastTime := now } }
        label now
    else { s with streak := { label := label, count := newCount, lastTime := now } }

/-- One spelling-mode classification event: a label with its confidence
and arrival time. -/
structure LetterEvent where
  label : String
  confidence : ℚ
  time : ℤ
deriving DecidableEq, Repr

/-- Folding step for a stream of spelling-mode letter events. -/
def spellStep (s : SpellState) (e : LetterEvent) : SpellState :=
  onLetterDetected s e.label e.confidence e.time

/-! ## Concrete frames used to instantiate the theorems -/

/-- A hand frame with no landmarks at all (malformed input). -/
def emptyHand : HandFrame :=
  { landmarks := [], handedness := .left, timestamp := 0 }

/-- A 21-landmark hand in the thumbs-up pose: thumb tip above its IP
joint, all four fingertips below their PIP joints, thumb x aligned with
the wrist so it does not count as curled. -/
def thumbsUpHand : HandFrame :=
  { landmarks :=
      [⟨0,0,0⟩, ⟨0,0,0⟩, ⟨0,0,0⟩, ⟨0,2,0⟩, ⟨0,1,0⟩, ⟨0,0,0⟩,
       ⟨0,1,0⟩, ⟨0,0,0⟩, ⟨0,2,0⟩, ⟨0,0,0⟩, ⟨0,1,0⟩, ⟨0,0,0⟩,
       ⟨0,2,0⟩, ⟨0,0,0⟩, ⟨0,1,0⟩, ⟨0,0,0⟩, ⟨0,2,0⟩, ⟨0,0,0⟩,
       ⟨0,1,0⟩, ⟨0,0,0⟩, ⟨0,2,0⟩],
    handedness := .left, timestamp := 0 }

/-- A 21-landmark hand in the closed-fist pose: thumb tip closer to the
wrist (in x) than its IP joint, all four fingertips below their PIP
joints, thumb tip not above its IP joint. -/
def fistHand : HandFrame :=
  { landmarks :=
      [⟨0,0,0⟩, ⟨0,0,0⟩, ⟨0,0,0⟩, ⟨1,0,0⟩, ⟨0,0,0⟩, ⟨0,0,0⟩,
       ⟨0,1,0⟩, ⟨0,0,0⟩, ⟨0,2,0⟩, ⟨0,0,0⟩, ⟨0,1,0⟩, ⟨0,0,0⟩,
       ⟨0,2,0⟩, ⟨0,0,0⟩, ⟨0,1,0⟩, ⟨0,0,0⟩, ⟨0,2,0⟩, ⟨0,0,0⟩,
       ⟨0,1,0⟩, ⟨0,0,0⟩, ⟨0,2,0⟩],
    handedness := .right, timestamp := 0 }

/-- A hand whose thumb tip and index tip coincide: a pinch (distance 0,
below PINCH_THRESHOLD).  Nine landmarks suffice for the navigator. -/
def pinchHand : HandFrame :=
  { landmarks :=
      [⟨0,0,0⟩, ⟨0,0,0⟩, ⟨0,0,0⟩, ⟨0,0,0⟩, ⟨1,1,0⟩, ⟨0,0,0⟩,
       ⟨0,0,0⟩, ⟨0,0,0⟩, ⟨1,1,0⟩],
    handedness := .left, timestamp := 0 }

/-- A hand whose thumb tip and index tip are one unit apart: no pinch. -/
def openHand : HandFrame :=
  { landmarks :=
      [⟨0,0,0⟩, ⟨0,0,0⟩, ⟨0,0,0⟩, ⟨0,0,0⟩, ⟨0,0,0⟩, ⟨0,0,0⟩,
       ⟨0,0,0⟩, ⟨0,0,0⟩, ⟨1,0,0⟩],
    handedness := .left, timestamp := 0 }

/-! ## Helper lemmas -/

/-- A single pushFrame call keeps the buffer within the window bound. -/
lemma pushFrame_length_le (L : ℕ) (b : List (List ℚ)) (hands : List HandFrame)
    (hb : b.length ≤ L) : (pushFrame L b hands).length ≤ L := by
  cases hands with
  | nil => simpa [pushFrame] using hb
  | cons h t =>
    simp only [pushFrame]
    split
    · simp only [List.length_drop, List.length_append, List.length_cons]
      omega
    · rename_i hle
      simp only [List.length_append, List.length_cons, not_lt] at hle ⊢
      simpa using hle

/-- Folding pushFrame keeps the buffer within the window bound. -/
lemma foldl_pushFrame_length_le (L : ℕ) :
    ∀ (cs : List (List HandFrame)) (b : List (List ℚ)), b.length ≤ L →
      (cs.foldl (pushFrame L) b).length ≤ L := by
  intro cs
  induction cs with
  | nil => intro b hb; simpa using hb
  | cons c cs ih =>
    intro b hb
    exact ih _ (pushFrame_length_le L b c hb)

/-- pushFrame with an empty hand list leaves the buffer untouched. -/
lemma pushFrame_nil_hands (L : ℕ) (b : List (List ℚ)) :
    pushFrame L b [] = b := rfl

/-- Folding pushFrame over any run of empty-hand frames leaves the
buffer untouched. -/
lemma foldl_pushFrame_replicate_nil (L n : ℕ) (b : List (List ℚ)) :
    ((List.replicate n ([] : List HandFrame)).foldl (pushFrame L) b) = b := by
  induction n with
  | zero => rfl
  | succ n ih => simpa [List.replicate_succ, pushFrame] using ih

/-! ## Claims -/

/-- C7: for every sequence of pushFrame calls the window length stays at
most L = 30; while the window is not yet full a frame with a hand is
appended at the end, and once the window is full each frame with a hand
evicts the oldest entry, keeping exactly the 30 most recent feature
vectors in order. -/
theorem c7_window_bound_and_eviction :
    (∀ cs : List (List HandFrame),
      (cs.foldl (pushFrame sequenceLength) []).length ≤ sequenceLength) ∧
    (∀ (b : List (List ℚ)) (h : HandFrame) (hs : List HandFrame),
      b.length = sequenceLength →
      pushFrame sequenceLength b (h :: hs) =
        b.drop 1 ++ [handFrameToFeatures h]) ∧
    (∀ (b : List (List ℚ)) (h : HandFrame) (hs : List HandFrame),
      b.length < sequenceLength →
      pushFrame sequenceLength b (h :: hs) = b ++ [handFrameToFeatures h]) := by
  refine ⟨fun cs => foldl_pushFrame_length_le _ cs [] (by simp), ?_, ?_⟩
  · intro b h hs hb
    have h1 : (1 : ℕ) ≤ b.length := by rw [hb]; norm_num [sequenceLength]
    simp only [pushFrame]
    rw [if_pos (by simp [hb, sequenceLength])]
    have : (b ++ [handFrameToFeatures h]).length - sequenceLength = 1 := by
      simp [hb]
    rw [this, List.drop_append_of_le_length h1]
  · intro b h hs hb
    simp only [pushFrame]
    rw [if_neg (by simp; omega)]

/-- C7 witness: a full 30-entry window plus a one-hand frame evicts the
oldest entry and appends the newest. -/
theorem c7_witness :
    (List.replicate 30 ([0] : List ℚ)).length = sequenceLength ∧
    pushFrame sequenceLength (List.replicate 30 ([0] : List ℚ)) [emptyHand] =
      (List.replicate 30 ([0] : List ℚ)).drop 1 ++ [handFrameToFeatures emptyHand] :=
  ⟨by simp [sequenceLength],
   c7_window_bound_and_eviction.2.1 _ emptyHand [] (by simp [sequenceLength])⟩

/-- C1: the claim (and the spec, and the comment in the kiosk page's
onHandResults that speaks of noHandCount logic inside pushFrame) says
the window is emptied after a configured number of consecutive
no-hand frames.  The code has no such logic: pushFrame returns
immediately on an empty hand list, so the window survives arbitrarily
long silent gaps unchanged.  Here: a full 30-entry window followed by
any number of silent frames (in particular 10) is still the same full
window, never the empty one. -/
theorem c1_window_never_reset_on_silence :
    (∀ (L : ℕ) (b : List (List ℚ)), pushFrame L b [] = b) ∧
    (∀ n : ℕ, ((List.replicate n ([] : List HandFrame)).foldl
        (pushFrame sequenceLength) (List.replicate 30 ([0] : List ℚ)))
      = List.replicate 30 ([0] : List ℚ)) ∧
    ((List.replicate 10 ([] : List HandFrame)).foldl
        (pushFrame sequenceLength) (List.replicate 30 ([0] : List ℚ))
      ≠ ([] : List (List ℚ))) := by
  refine ⟨fun L b => rfl, fun n => foldl_pushFrame_replicate_nil _ n _, ?_⟩
  rw [foldl_pushFrame_replicate_nil]
  simp

/-- C9: a hand with fewer than 21 landmarks is rejected by the guard at
the top of both pose detectors, so both return false (no landmark index
beyond the guard is ever inspected), and detectGestureTarget yields no
candidate mode whenever either of the two inspected hands is
malformed. -/
theorem c9_malformed_hand_no_pose :
    (∀ hand : HandFrame, hand.landmarks.length < 21 →
      isClosedFist hand = false ∧ isThumbsUp hand = false) ∧
    (∀ (h0 h1 : HandFrame) (rest : List HandFrame),
      h0.landmarks.length < 21 ∨ h1.landmarks.length < 21 →
      detectGestureTarget (h0 :: h1 :: rest) = none) := by
  have hfist : ∀ hand : HandFrame, hand.landmarks.length < 21 →
      isClosedFist hand = false := by
    intro hand hlen
    simp [isClosedFist, hlen]
  have hthumb : ∀ hand : HandFrame, hand.landmarks.length < 21 →
      isThumbsUp hand = false := by
    intro hand hlen
    simp [isThumbsUp, hlen]
  refine ⟨fun hand hlen => ⟨hfist hand hlen, hthumb hand hlen⟩, ?_⟩
  intro h0 h1 rest hmal
  rcases hmal with h | h
  · simp [detectGestureTarget, hfist h0 h, hthumb h0 h]
  · simp [detectGestureTarget, hfist h1 h, hthumb h1 h]

/-- C9 witness: a landmark-free hand produces no pose and, paired with
a well-formed fist, no candidate mode. -/
theorem c9_witness :
    emptyHand.landmarks.length < 21 ∧
    isClosedFist emptyHand = false ∧ isThumbsUp emptyHand = false ∧
    detectGestureTarget [emptyHand, fistHand] = none := by
  have h : emptyHand.landmarks.length < 21 := by simp [emptyHand]
  have h1 := c9_malformed_hand_no_pose.1 emptyHand h
  have h2 := c9_malformed_hand_no_pose.2 emptyHand fistHand [] (Or.inl h)
  exact ⟨h, h1.1, h1.2, h2⟩

/-- clearHold keeps mode and lastToggle and empties holdStart. -/
lemma clearHold_fields (s : ModeState) :
    (clearHold s).mode = s.mode ∧ (clearHold s).lastToggle = s.lastToggle ∧
      (clearHold s).holdStart = none ∧
      (s.holdStart.isSome →
        (clearHold s).holdTarget = none ∧ (clearHold s).holdProgress = 0 ∧
        (clearHold s).isHolding = false) := by
  unfold clearHold
  split <;> simp_all

/-- A hold-free state passes through clearHold unchanged. -/
lemma clearHold_of_none (s : ModeState) (h : s.holdStart = none) :
    clearHold s = s := by
  unfold clearHold
  simp [h]

/-- During the cooldown, checkModeGesture only clears the hold. -/
lemma checkModeGesture_cooldown (s : ModeState) (now : ℤ)
    (hands : List HandFrame) (h : now - s.lastToggle < TOGGLE_COOLDOWN) :
    checkModeGesture s now hands = clearHold s := by
  unfold checkModeGesture
  rw [if_pos h]

/-- The progress comparison of checkModeGesture reaches 1 exactly when
the elapsed time reaches HOLD_DURATION. -/
lemma one_le_progress_iff (e : ℤ) :
    (1 : ℚ) ≤ min (mkRat e 1000) 1 ↔ HOLD_DURATION ≤ e := by
  rw [le_min_iff, Rat.mkRat_eq_div]
  constructor
  · rintro ⟨h1, _⟩
    rw [le_div_iff₀ (by norm_num), one_mul] at h1
    have : (1000 : ℤ) ≤ e := by exact_mod_cast h1
    simpa [HOLD_DURATION] using this
  · intro h
    refine ⟨?_, le_refl 1⟩
    rw [le_div_iff₀ (by norm_num), one_mul]
    have : (1000 : ℤ) ≤ e := by simpa [HOLD_DURATION] using h
    exact_mod_cast this

/-- Branch equation: cooldown inactive, no target detected. -/
lemma checkModeGesture_no_target (s : ModeState) (now : ℤ)
    (hands : List HandFrame) (hcd : ¬ now - s.lastToggle < TOGGLE_COOLDOWN)
    (hdet : detectGestureTarget hands = none) :
    checkModeGesture s now hands = clearHold s := by
  unfold checkModeGesture
  rw [if_neg hcd]
  simp only [hdet]

/-- Branch equation: the detected target equals the current mode. -/
lemma checkModeGesture_same_target (s : ModeState) (now : ℤ)
    (hands : List HandFrame) (target : InteractionMode)
    (hcd : ¬ now - s.lastToggle < TOGGLE_COOLDOWN)
    (hdet : detectGestureTarget hands = some target)
    (htm : target = s.mode) :
    checkModeGesture s now hands = clearHold s := by
  unfold checkModeGesture
  rw [if_neg hcd]
  simp only [hdet]
  rw [if_neg (by simp [htm])]

/-- Branch equation: a fresh hold starts (no stored hold, or the stored
target differs from the detected one); the progress is 0 and no commit
happens on this frame. -/
lemma checkModeGesture_restart (s : ModeState) (now : ℤ)
    (hands : List HandFrame) (target : InteractionMode)
    (hcd : ¬ now - s.lastToggle < TOGGLE_COOLDOWN)
    (hdet : detectGestureTarget hands = some target)
    (htm : target ≠ s.mode)
    (hfresh : s.holdStart = none ∨ s.holdTarget ≠ some target) :
    checkModeGesture s now hands =
      { s with holdStart := some now, holdTarget := some target,
               holdProgress := 0, isHolding := true } := by
  unfold checkModeGesture
  rw [if_neg hcd]
  simp only [hdet]
  rw [if_pos htm]
  have hstart :
      (match s.holdStart, s.holdTarget with
        | some t0, some tg => if tg = target then t0 else now
        | _, _ => now) = now := by
    rcases hhs : s.holdStart with _ | t0 <;> rcases hht : s.holdTarget with _ | tg
    · rfl
    · rfl
    · rfl
    · rcases hfresh with h | h
      · rw [hhs] at h; exact absurd h (by simp)
      · rw [hht] at h
        have : tg ≠ target := fun he => h (by rw [he])
        simp [this]
  rw [hstart]
  rw [if_neg (by rw [one_le_progress_iff]; unfold HOLD_DURATION; omega)]
  have : mkRat (now - now) 1000 ⊓ 1 = 0 := by
    rw [sub_self]
    norm_num [Rat.mkRat_eq_div]
  rw [this]

/-- Branch equation: a stored hold for the detected target continues;
the call commits exactly when HOLD_DURATION has elapsed since the
stored start. -/
lemma checkModeGesture_continue (s : ModeState) (now t0 : ℤ)
    (hands : List HandFrame) (target : InteractionMode)
    (hcd : ¬ now - s.lastToggle < TOGGLE_COOLDOWN)
    (hdet : detectGestureTarget hands = some target)
    (htm : target ≠ s.mode)
    (hhs : s.holdStart = some t0) (hht : s.holdTarget = some target) :
    checkModeGesture s now hands =
      if HOLD_DURATION ≤ now - t0 then commitState target now
      else { s with holdStart := some t0, holdTarget := some target,
                    holdProgress := min (mkRat (now - t0) 1000) 1,
                    isHolding := true } := by
  unfold checkModeGesture
  rw [if_neg hcd]
  simp only [hdet, hhs, hht, if_true, ite_true]
  rw [if_pos htm]
  rw [if_congr (one_le_progress_iff (now - t0)) rfl rfl]
  rfl

/-- A call commits (changes the mode) exactly when the cooldown is
inactive, a valid target distinct from the current mode is detected,
and the stored hold for that same target started at least HOLD_DURATION
milliseconds ago; and a committing call produces exactly the
cleared-hold state with the new mode and lastToggle = now. -/
lemma checkModeGesture_commit_iff (s : ModeState) (now : ℤ)
    (hands : List HandFrame) :
    ((checkModeGesture s now hands).mode ≠ s.mode ↔
      (TOGGLE_COOLDOWN ≤ now - s.lastToggle ∧
       ∃ tg, detectGestureTarget hands = some tg ∧ tg ≠ s.mode ∧
         s.holdTarget = some tg ∧
         ∃ t0, s.holdStart = some t0 ∧ HOLD_DURATION ≤ now - t0)) ∧
    ((checkModeGesture s now hands).mode ≠ s.mode →
      ∃ tg, detectGestureTarget hands = some tg ∧
        checkModeGesture s now hands = commitState tg now) := by
  by_cases hcd : now - s.lastToggle < TOGGLE_COOLDOWN
  · rw [checkModeGesture_cooldown s now hands hcd]
    constructor
    · rw [(clearHold_fields s).1]
      simp only [ne_eq, not_true_eq_false, false_iff, not_and]
      intro h
      omega
    · intro h
      exact absurd (clearHold_fields s).1 h
  · have hcd' : TOGGLE_COOLDOWN ≤ now - s.lastToggle := by omega
    cases hdet : detectGestureTarget hands with
    | none =>
      rw [checkModeGesture_no_target s now hands hcd hdet]
      constructor
      · rw [(clearHold_fields s).1]
        simp
      · intro h
        exact absurd (clearHold_fields s).1 h
    | some target =>
      by_cases htm : target = s.mode
      · rw [checkModeGesture_same_target s now hands target hcd hdet htm]
        constructor
        · rw [(clearHold_fields s).1]
          simp only [ne_eq, not_true_eq_false, false_iff, not_and,
            not_exists]
          intro _ tg htg
          have := Option.some.inj htg
          subst this
          intro hne
          exact absurd htm hne
        · intro h
          exact absurd (clearHold_fields s).1 h
      · by_cases hcont : s.holdTarget = some target ∧ ∃ t0, s.holdStart = some t0
        · obtain ⟨hht, t0, hhs⟩ := hcont
          rw [checkModeGesture_continue s now t0 hands target hcd hdet htm hhs hht]
          by_cases hel : HOLD_DURATION ≤ now - t0
          · rw [if_pos hel]
            constructor
            · simp only [commitState, ne_eq]
              constructor
              · intro _
                exact ⟨hcd', target, rfl, htm, hht, t0, hhs, hel⟩
              · intro _
                exact htm
            · intro _
              exact ⟨target, rfl, rfl⟩
          · rw [if_neg hel]
            constructor
            · simp only [ne_eq, not_true_eq_false, false_iff, not_and,
                not_exists]
              intro _ tg' htg' _ hht' t0' hhs'
              rw [hhs] at hhs'
              have h3 := Option.some.inj hhs'
              subst h3
              exact fun hle => hel hle
            · intro h
              exact absurd rfl h
        · have hfresh : s.holdStart = none ∨ s.holdTarget ≠ some target := by
            rcases hhs : s.holdStart with _ | t0
            · exact Or.inl rfl
            · right
              intro hht
              exact hcont ⟨hht, t0, hhs⟩
          rw [checkModeGesture_restart s now hands target hcd hdet htm hfresh]
          constructor
          · simp only [ne_eq, not_true_eq_false, false_iff, not_and,
              not_exists]
            intro _ tg' htg' _ hht' t0' hhs'
            have h1 := Option.some.inj htg'
            subst h1
            exact absurd hht' fun hh => hcont ⟨hh, t0', hhs'⟩
          · intro h
            exact absurd rfl h

/-- C4: while the 1500 ms cooldown that follows a committed switch is
active, checkModeGesture never changes the mode or the toggle time and
clears any hold in progress (resetting its progress to 0); a committed
switch is exactly what arms the cooldown, since every call that changes
the mode records its time in lastToggle; hence after a commit the whole
remainder of the cooldown window leaves the mode untouched, whatever
hands are presented. -/
theorem c4_cooldown_blocks_switches :
    (∀ (s : ModeState) (now : ℤ) (hands : List HandFrame),
      now - s.lastToggle < TOGGLE_COOLDOWN →
      (checkModeGesture s now hands).mode = s.mode ∧
      (checkModeGesture s now hands).lastToggle = s.lastToggle ∧
      (checkModeGesture s now hands).holdStart = none ∧
      (s.holdStart.isSome → (checkModeGesture s now hands).holdProgress = 0)) ∧
    (∀ (s : ModeState) (now : ℤ) (hands : List HandFrame),
      (checkModeGesture s now hands).mode ≠ s.mode →
      (checkModeGesture s now hands).lastToggle = now) ∧
    (∀ (s : ModeState) (cs : List (ℤ × List HandFrame)),
      (∀ c ∈ cs, c.1 - s.lastToggle < TOGGLE_COOLDOWN) →
      (cs.foldl modeStep s).mode = s.mode ∧
      (cs.foldl modeStep s).lastToggle = s.lastToggle) := by
  have hstep : ∀ (s : ModeState) (now : ℤ) (hands : List HandFrame),
      now - s.lastToggle < TOGGLE_COOLDOWN →
      (checkModeGesture s now hands).mode = s.mode ∧
      (checkModeGesture s now hands).lastToggle = s.lastToggle ∧
      (checkModeGesture s now hands).holdStart = none ∧
      (s.holdStart.isSome → (checkModeGesture s now hands).holdProgress = 0) := by
    intro s now hands h
    rw [checkModeGesture_cooldown s now hands h]
    have := clearHold_fields s
    refine ⟨this.1, this.2.1, this.2.2.1, fun hs => (this.2.2.2 hs).2.1⟩
  refine ⟨hstep, ?_, ?_⟩
  · intro s now hands hmode
    obtain ⟨tg, _, hres⟩ := (checkModeGesture_commit_iff s now hands).2 hmode
    rw [hres]
    rfl
  · intro s cs
    induction cs generalizing s with
    | nil => intro _; exact ⟨rfl, rfl⟩
    | cons c cs ih =>
      intro hall
      have hc := hall c (List.mem_cons_self c cs)
      have h1 := hstep s c.1 c.2 hc
      have h2 := ih (modeStep s c) (by
        intro c' hc'
        have := hall c' (List.mem_cons_of_mem c hc')
        simpa [modeStep, h1.2.1] using this)
      simp only [List.foldl_cons]
      exact ⟨h2.1.trans h1.1, h2.2.trans h1.2.1⟩

/-- C4 witness: immediately after a commit at time 1000, a call at time
2000 is inside the cooldown and leaves the mode alone, and a pair of
calls at 1100 and 2400 presenting a valid two-thumbs hold spanning
1300 ms (more than HOLD_DURATION) still commits nothing. -/
theorem c4_witness :
    ((2000 : ℤ) - (commitState .navigate 1000).lastToggle < TOGGLE_COOLDOWN) ∧
    (checkModeGesture (commitState .navigate 1000) 2000
        [thumbsUpHand, thumbsUpHand]).mode = .navigate ∧
    ([((1100 : ℤ), [thumbsUpHand, thumbsUpHand]),
      ((2400 : ℤ), [thumbsUpHand, thumbsUpHand])].foldl modeStep
        (commitState .navigate 1000)).mode = .navigate := by
  have hcd : (2000 : ℤ) - (commitState .navigate 1000).lastToggle <
      TOGGLE_COOLDOWN := by
    norm_num [commitState, TOGGLE_COOLDOWN]
  refine ⟨hcd, (c4_cooldown_blocks_switches.1 _ 2000 _ hcd).1, ?_⟩
  have hall : ∀ c ∈ [((1100 : ℤ), [thumbsUpHand, thumbsUpHand]),
      ((2400 : ℤ), [thumbsUpHand, thumbsUpHand])],
      c.1 - (commitState .navigate 1000).lastToggle < TOGGLE_COOLDOWN := by
    intro c hc
    fin_cases hc <;> norm_num [commitState, TOGGLE_COOLDOWN]
  exact (c4_cooldown_blocks_switches.2.2 _ _ hall).1

/-- Folding checkModeGesture over calls that all land inside the
cooldown of a hold-free state leaves the state untouched. -/
lemma foldl_modeStep_cooldown_frozen :
    ∀ (cs : List (ℤ × List HandFrame)) (s : ModeState),
      s.holdStart = none →
      (∀ c ∈ cs, c.1 - s.lastToggle < TOGGLE_COOLDOWN) →
      cs.foldl modeStep s = s := by
  intro cs
  induction cs with
  | nil => intro s _ _; rfl
  | cons c cs ih =>
    intro s hhs hall
    have hc := hall c (List.mem_cons_self c cs)
    have hstep : modeStep s c = s := by
      unfold modeStep
      rw [checkModeGesture_cooldown _ _ _ hc, clearHold_of_none s hhs]
    simp only [List.foldl_cons, hstep]
    exact ih s hhs fun c' hc' => hall c' (List.mem_cons_of_mem c hc')

/-- C10: a manual override always takes effect immediately (whatever
the state, in particular during an active cooldown), clears any hold in
progress, and records the switch time; every subsequent
checkModeGesture call within the following 1500 ms leaves the state
completely unchanged, so no pose hold can start or commit there.  The
kiosk page routes the classifier labels mode_navigate, mode_spelling
and mode_sign through this same setModeManual whenever the target
differs from the current mode. -/
theorem c10_manual_override :
    (∀ (s : ModeState) (target : InteractionMode) (now : ℤ),
      (setModeManual s target now).mode = target ∧
      (setModeManual s target now).holdStart = none ∧
      (setModeManual s target now).holdTarget = none ∧
      (setModeManual s target now).holdProgress = 0 ∧
      (setModeManual s target now).lastToggle = now ∧
      (∀ cs : List (ℤ × List HandFrame),
        (∀ c ∈ cs, c.1 - now < TOGGLE_COOLDOWN) →
        cs.foldl modeStep (setModeManual s target now) =
          setModeManual s target now)) ∧
    (∀ (s : ModeState) (now : ℤ),
      (s.mode ≠ .navigate →
        routeModeLabel s "mode_navigate" now = setModeManual s .navigate now) ∧
      (s.mode ≠ .spelling →
        routeModeLabel s "mode_spelling" now = setModeManual s .spelling now) ∧
      (s.mode ≠ .sign →
        routeModeLabel s "mode_sign" now = setModeManual s .sign now)) := by
  constructor
  · intro s target now
    refine ⟨rfl, rfl, rfl, rfl, rfl, ?_⟩
    intro cs hall
    exact foldl_modeStep_cooldown_frozen cs (setModeManual s target now) rfl hall
  · intro s now
    refine ⟨fun h => ?_, fun h => ?_, fun h => ?_⟩
    · simp [routeModeLabel, h]
    · simp [routeModeLabel, h]
    · simp [routeModeLabel, h]

/-- C10 witness: from the initial state, a manual switch to spelling at
time 5000 takes effect at once, and a two-thumbs call at 5500 (inside
the new cooldown) changes nothing. -/
theorem c10_witness :
    (setModeManual (initModeState .sign) .spelling 5000).mode = .spelling ∧
    (∀ c ∈ [((5500 : ℤ), [thumbsUpHand, thumbsUpHand])],
      c.1 - (5000 : ℤ) < TOGGLE_COOLDOWN) ∧
    [((5500 : ℤ), [thumbsUpHand, thumbsUpHand])].foldl modeStep
        (setModeManual (initModeState .sign) .spelling 5000) =
      setModeManual (initModeState .sign) .spelling 5000 := by
  have hall : ∀ c ∈ [((5500 : ℤ), [thumbsUpHand, thumbsUpHand])],
      c.1 - (5000 : ℤ) < TOGGLE_COOLDOWN := by
    intro c hc
    fin_cases hc
    norm_num [TOGGLE_COOLDOWN]
  have h := c10_manual_override.1 (initModeState .sign) .spelling 5000
  exact ⟨h.1, hall, h.2.2.2.2.2 _ hall⟩

/-- C5 counterexample: the claim says a result is produced only when
the top confidence strictly exceeds the threshold.  The code gates with
confidence >= confidenceThreshold, so with the top score exactly equal
to the default threshold 0.45 on a full window, classify produces a
result even though 0.45 does not strictly exceed 0.45. -/
theorem c5_counterexample :
    (classify (some fun _ => some [(0.45 : ℚ)]) ["hello"] confidenceThreshold
        sequenceLength { buffer := List.replicate 30 [0], inflight := false }).1
      = some { label := "hello", confidence := 0.45, source := "lstm" } ∧
    ¬ ((0.45 : ℚ) > confidenceThreshold) := by
  constructor
  · norm_num [classify, scoreOutput, sequenceLength, confidenceThreshold,
      List.max?]
  · norm_num [confidenceThreshold]

/-- C5 (amended): with mx the top score of the model output, classify's
scoring produces a result exactly when the first index attaining mx
lies inside the label set and mx is at least (not strictly above) the
threshold; the result then carries the top-scoring label and mx as
confidence; a top score below the threshold yields nothing (and hence
no gesture callback, which fires only on a produced result); and on a
full window with no prior call in flight, classify defers to exactly
this scoring of the model output. -/
theorem c5_confidence_gate :
    (∀ (labels : List String) (threshold : ℚ) (probs : List ℚ) (mx : ℚ)
       (r : GestureResult),
      probs.max? = some mx →
      (scoreOutput labels threshold probs = some r ↔
        (probs.indexOf mx < labels.length ∧ threshold ≤ mx ∧
         r = { label := labels.getD (probs.indexOf mx) "", confidence := mx,
               source := "lstm" }))) ∧
    (∀ (labels : List String) (threshold : ℚ) (probs : List ℚ) (mx : ℚ),
      probs.max? = some mx → mx < threshold →
      scoreOutput labels threshold probs = none) ∧
    (∀ (m : List (List ℚ) → Option (List ℚ)) (labels : List String)
       (threshold : ℚ) (seqLen : ℕ) (s : ClassifierState) (probs : List ℚ),
      ¬ s.buffer.length < seqLen → s.inflight = false →
      m s.buffer = some probs →
      (classify (some m) labels threshold seqLen s).1 =
        scoreOutput labels threshold probs) := by
  refine ⟨?_, ?_, ?_⟩
  · intro labels threshold probs mx r hmx
    unfold scoreOutput
    simp only [hmx]
    by_cases hidx : labels.length ≤ probs.indexOf mx
    · rw [if_pos hidx]
      simp only [false_iff, reduceCtorEq]
      intro hc
      omega
    · rw [if_neg hidx]
      by_cases hthr : threshold ≤ mx
      · rw [if_pos hthr]
        constructor
        · intro h
          exact ⟨by omega, hthr, (Option.some.inj h).symm⟩
        · intro ⟨_, _, hr⟩
          rw [hr]
      · rw [if_neg hthr]
        simp only [false_iff, reduceCtorEq]
        intro hc
        exact hthr hc.2.1
  · intro labels threshold probs mx hmx hlt
    unfold scoreOutput
    simp only [hmx]
    by_cases hidx : labels.length ≤ probs.indexOf mx
    · rw [if_pos hidx]
    · rw [if_neg hidx, if_neg (by exact fun h => absurd hlt (not_lt.mpr h))]
  · intro m labels threshold seqLen s probs hlen hinf hm
    simp only [classify]
    rw [if_neg (by simp [hlen, hinf])]
    rw [hm]

/-- C5 witness: a top score of 0.3 sits below the 0.45 threshold and
yields nothing. -/
theorem c5_witness :
    ([(0.3 : ℚ)].max? = some 0.3) ∧ ((0.3 : ℚ) < confidenceThreshold) ∧
    scoreOutput ["hello"] confidenceThreshold [(0.3 : ℚ)] = none := by
  have h1 : ([(0.3 : ℚ)].max? = some 0.3) := by simp [List.max?]
  have h2 : (0.3 : ℚ) < confidenceThreshold := by norm_num [confidenceThreshold]
  exact ⟨h1, h2, c5_confidence_gate.2.1 ["hello"] _ _ _ h1 h2⟩

/-- C6: a classify call that finds the window not yet full or a prior
call still in flight is a complete no-op: it returns null and the exact
unchanged state, uniformly in the model function (hence without
invoking the model); a call that passes the guard ends with the
in-flight flag cleared (the finally block) whether the model succeeds
or throws, and never mutates the window. -/
theorem c6_at_most_one_inflight :
    (∀ (model : Option (List (List ℚ) → Option (List ℚ)))
       (labels : List String) (threshold : ℚ) (seqLen : ℕ)
       (s : ClassifierState),
      s.buffer.length < seqLen ∨ s.inflight = true →
      classify model labels threshold seqLen s = (none, s)) ∧
    (∀ (m : List (List ℚ) → Option (List ℚ)) (labels : List String)
       (threshold : ℚ) (seqLen : ℕ) (s : ClassifierState),
      ¬ s.buffer.length < seqLen → s.inflight = false →
      (classify (some m) labels threshold seqLen s).2.inflight = false ∧
      (classify (some m) labels threshold seqLen s).2.buffer = s.buffer) := by
  constructor
  · intro model labels threshold seqLen s hguard
    cases model with
    | none => rfl
    | some m =>
      simp only [classify]
      rw [if_pos hguard]
  · intro m labels threshold seqLen s hlen hinf
    simp only [classify]
    rw [if_neg (by simp [hlen, hinf])]
    cases m s.buffer <;> simp

/-- C6 witness: an empty window is below L = 30, so classify with an
arbitrary model is a no-op on it, and a full window with a model that
throws still comes back with the in-flight flag cleared. -/
theorem c6_witness :
    ((⟨[], false⟩ : ClassifierState).buffer.length < sequenceLength ∨
      (⟨[], false⟩ : ClassifierState).inflight = true) ∧
    classify (some fun _ => some [(1 : ℚ)]) ["hello"] confidenceThreshold
        sequenceLength ⟨[], false⟩ = (none, ⟨[], false⟩) ∧
    ¬ (⟨List.replicate 30 [0], false⟩ : ClassifierState).buffer.length <
        sequenceLength ∧
    (classify (some fun _ => none) ["hello"] confidenceThreshold
        sequenceLength ⟨List.replicate 30 [0], false⟩).2.inflight = false := by
  have hg : (⟨[], false⟩ : ClassifierState).buffer.length < sequenceLength ∨
      (⟨[], false⟩ : ClassifierState).inflight = true := by
    left
    simp [sequenceLength]
  have hlen : ¬ (⟨List.replicate 30 [0], false⟩ : ClassifierState).buffer.length <
      sequenceLength := by simp [sequenceLength]
  exact ⟨hg, c6_at_most_one_inflight.1 _ _ _ _ _ hg, hlen,
    (c6_at_most_one_inflight.2 _ _ _ _ _ hlen rfl).1⟩

/-- addLetter never touches the streak cells. -/
lemma addLetter_streak (s : SpellState) (label : String) (now : ℤ) :
    (addLetter s label now).streak = s.streak := by
  simp only [addLetter]
  split
  · rfl
  · split <;> rfl

/-- Branch equation: the same-letter debounce inside MIN_LETTER_GAP_MS
leaves the word-builder cells untouched. -/
lemma addLetter_debounce (s : SpellState) (label : String) (now : ℤ)
    (hchar : ¬ (charOfLabel label).length ≠ 1)
    (hdeb : charOfLabel label = s.lastLetter ∧
      now - s.lastLetterTime < MIN_LETTER_GAP_MS) :
    addLetter s label now = s := by
  unfold addLetter
  rw [if_neg hchar, if_pos hdeb]

/-- Branch equation: outside the debounce, the letter is appended and
recorded with its time. -/
lemma addLetter_append (s : SpellState) (label : String) (now : ℤ)
    (hchar : ¬ (charOfLabel label).length ≠ 1)
    (hdeb : ¬ (charOfLabel label = s.lastLetter ∧
      now - s.lastLetterTime < MIN_LETTER_GAP_MS)) :
    addLetter s label now =
      { s with lastLetter := charOfLabel label, lastLetterTime := now,
               letters := s.letters ++ [charOfLabel label] } := by
  unfold addLetter
  rw [if_neg hchar, if_neg hdeb]

/-- Branch equation: below the spelling threshold nothing changes. -/
lemma onLetterDetected_low (s : SpellState) (label : String) (conf : ℚ)
    (now : ℤ) (hconf : conf < SPELLING_CONFIDENCE_THRESHOLD) :
    onLetterDetected s label conf now = s := by
  unfold onLetterDetected
  rw [if_pos hconf]

/-- Branch equation: a confident observation that matches the streak
label inside the window extends the streak; below the required count,
only the streak advances. -/
lemma onLetterDetected_extend (s : SpellState) (label : String) (conf : ℚ)
    (now : ℤ) (hconf : ¬ conf < SPELLING_CONFIDENCE_THRESHOLD)
    (hsw : label = s.streak.label ∧
      now - s.streak.lastTime ≤ LETTER_STREAK_WINDOW_MS)
    (hlt : ¬ LETTER_STREAK_REQUIRED ≤ s.streak.count + 1) :
    onLetterDetected s label conf now =
      { s with streak := ⟨label, s.streak.count + 1, now⟩ } := by
  unfold onLetterDetected
  rw [if_neg hconf]
  simp only [if_pos hsw]
  rw [if_neg hlt]

/-- Branch equation: a confident observation with a different label or
an expired window restarts the streak at count 1. -/
lemma onLetterDetected_restart (s : SpellState) (label : String) (conf : ℚ)
    (now : ℤ) (hconf : ¬ conf < SPELLING_CONFIDENCE_THRESHOLD)
    (hsw : ¬ (label = s.streak.label ∧
      now - s.streak.lastTime ≤ LETTER_STREAK_WINDOW_MS)) :
    onLetterDetected s label conf now =
      { s with streak := ⟨label, 1, now⟩ } := by
  unfold onLetterDetected
  rw [if_neg hconf]
  simp only [if_neg hsw]
  rw [if_neg (by norm_num [LETTER_STREAK_REQUIRED])]

/-- Branch equation: a confident matching observation that brings the
streak to the required count fires addLetter on the streak-cleared
state. -/
lemma onLetterDetected_fire (s : SpellState) (label : String) (conf : ℚ)
    (now : ℤ) (hconf : ¬ conf < SPELLING_CONFIDENCE_THRESHOLD)
    (hsw : label = s.streak.label ∧
      now - s.streak.lastTime ≤ LETTER_STREAK_WINDOW_MS)
    (hge : LETTER_STREAK_REQUIRED ≤ s.streak.count + 1) :
    onLetterDetected s label conf now =
      addLetter { s with streak := ⟨"", 0, now⟩ } label now := by
  unfold onLetterDetected
  rw [if_neg hconf]
  simp only [if_pos hsw]
  rw [if_pos hge]

/-- One spelling event keeps the streak count at 2 or below. -/
lemma spellStep_count_le (s : SpellState) (e : LetterEvent)
    (h : s.streak.count ≤ 2) : (spellStep s e).streak.count ≤ 2 := by
  unfold spellStep
  by_cases hconf : e.confidence < SPELLING_CONFIDENCE_THRESHOLD
  · rw [onLetterDetected_low _ _ _ _ hconf]
    exact h
  · by_cases hsw : e.label = s.streak.label ∧
        e.time - s.streak.lastTime ≤ LETTER_STREAK_WINDOW_MS
    · by_cases hge : LETTER_STREAK_REQUIRED ≤ s.streak.count + 1
      · rw [onLetterDetected_fire _ _ _ _ hconf hsw hge, addLetter_streak]
        norm_num
      · rw [onLetterDetected_extend _ _ _ _ hconf hsw hge]
        unfold LETTER_STREAK_REQUIRED at hge
        simp only
        omega
    · rw [onLetterDetected_restart _ _ _ _ hconf hsw]
      norm_num

/-- Over a run of confident letter events, a stored streak of count c
marks the last c events of the run: they form a suffix, all carry the
streak label, consecutive ones lie within the 900 ms window of each
other, and the last one happened at the streak's stored time.  So
count = 2 certifies two consecutive observations of the same label
within the window, and the matching confident observation that raises
it to the required 3 is the third consecutive one. -/
lemma streak_provenance :
    ∀ es : List LetterEvent,
      (∀ e ∈ es, SPELLING_CONFIDENCE_THRESHOLD ≤ e.confidence) →
      1 ≤ (es.foldl spellStep initSpellState).streak.count →
      ∃ pre suf, es = pre ++ suf ∧
        suf.length = (es.foldl spellStep initSpellState).streak.count ∧
        (∀ e ∈ suf, e.label = (es.foldl spellStep initSpellState).streak.label) ∧
        List.Chain' (fun a b => b.time - a.time ≤ LETTER_STREAK_WINDOW_MS) suf ∧
        (∃ last, suf.getLast? = some last ∧
          last.time = (es.foldl spellStep initSpellState).streak.lastTime) := by
  intro es
  induction es using List.reverseRecOn with
  | nil =>
    intro _ hc
    norm_num [initSpellState] at hc
  | append_singleton es e ih =>
    intro hconf hc
    have he : SPELLING_CONFIDENCE_THRESHOLD ≤ e.confidence :=
      hconf e (List.mem_append_right es (List.mem_singleton_self e))
    have hes : ∀ x ∈ es, SPELLING_CONFIDENCE_THRESHOLD ≤ x.confidence :=
      fun x hx => hconf x (List.mem_append_left _ hx)
    have hnl : ¬ e.confidence < SPELLING_CONFIDENCE_THRESHOLD := not_lt.mpr he
    rw [List.foldl_append, List.foldl_cons, List.foldl_nil] at hc ⊢
    set s := es.foldl spellStep initSpellState with hs
    by_cases hsw : e.label = s.streak.label ∧
        e.time - s.streak.lastTime ≤ LETTER_STREAK_WINDOW_MS
    · by_cases hge : LETTER_STREAK_REQUIRED ≤ s.streak.count + 1
      · rw [show spellStep s e = onLetterDetected s e.label e.confidence e.time
            from rfl, onLetterDetected_fire _ _ _ _ hnl hsw hge] at hc
        rw [addLetter_streak] at hc
        norm_num at hc
      · rw [show spellStep s e = onLetterDetected s e.label e.confidence e.time
            from rfl, onLetterDetected_extend _ _ _ _ hnl hsw hge] at hc ⊢
        simp only at hc ⊢
        by_cases hc1 : 1 ≤ s.streak.count
        · obtain ⟨pre, suf, hsplit, hlen, hlab, hchain, last0, hlast0, htime0⟩ :=
            ih hes hc1
          refine ⟨pre, suf ++ [e], by rw [hsplit, List.append_assoc], ?_, ?_, ?_, ?_⟩
          · simp [hlen]
          · intro x hx
            rcases List.mem_append.mp hx with h | h
            · rw [hlab x h, hsw.1]
            · rw [List.mem_singleton.mp h]
          · rw [List.chain'_append]
            refine ⟨hchain, List.chain'_singleton e, ?_⟩
            intro x hx y hy
            rw [List.head?_cons, Option.mem_some_iff] at hy
            rw [hlast0, Option.mem_some_iff] at hx
            subst hx
            subst hy
            rw [htime0]
            exact hsw.2
          · refine ⟨e, ?_, rfl⟩
            rw [List.getLast?_concat]
        · refine ⟨es, [e], by simp, ?_, ?_, List.chain'_singleton e, e, rfl, rfl⟩
          · simp
            omega
          · intro x hx
            rw [List.mem_singleton.mp hx]
    · rw [show spellStep s e = onLetterDetected s e.label e.confidence e.time
          from rfl, onLetterDetected_restart _ _ _ _ hnl hsw] at hc ⊢
      simp only at hc ⊢
      refine ⟨es, [e], by simp, by simp, ?_, List.chain'_singleton e, e, rfl, rfl⟩
      intro x hx
      rw [List.mem_singleton.mp hx]

/-- C2: in spelling mode a letter is appended exactly when its
confident (at least 0.75) observation is the third consecutive
observation of the same label, each within 900 ms of the previous one
(the stored streak count is 2 and this matching observation raises it
to the required 3 — the trace invariant shows the stored count never
exceeds 2, and the provenance conjunct certifies that a stored count
covers exactly that many trailing consecutive same-label observations
spaced within the window), and the extracted character either differs
from the last accepted letter or arrives at least 1200 ms after it; an
observation below the threshold is rejected with the whole state, in
particular the streak, untouched. -/
theorem c2_letter_append_iff :
    (∀ (s : SpellState) (label : String) (conf : ℚ) (now : ℤ),
      conf < SPELLING_CONFIDENCE_THRESHOLD →
      onLetterDetected s label conf now = s) ∧
    (∀ es : List LetterEvent,
      (es.foldl spellStep initSpellState).streak.count ≤ 2) ∧
    (∀ (s : SpellState) (label : String) (conf : ℚ) (now : ℤ),
      (charOfLabel label).length = 1 →
      ((onLetterDetected s label conf now).letters =
          s.letters ++ [charOfLabel label] ↔
        (SPELLING_CONFIDENCE_THRESHOLD ≤ conf ∧
         label = s.streak.label ∧
         now - s.streak.lastTime ≤ LETTER_STREAK_WINDOW_MS ∧
         2 ≤ s.streak.count ∧
         (charOfLabel label ≠ s.lastLetter ∨
          MIN_LETTER_GAP_MS ≤ now - s.lastLetterTime)))) ∧
    (∀ es : List LetterEvent,
      (∀ e ∈ es, SPELLING_CONFIDENCE_THRESHOLD ≤ e.confidence) →
      1 ≤ (es.foldl spellStep initSpellState).streak.count →
      ∃ pre suf, es = pre ++ suf ∧
        suf.length = (es.foldl spellStep initSpellState).streak.count ∧
        (∀ e ∈ suf,
          e.label = (es.foldl spellStep initSpellState).streak.label) ∧
        List.Chain' (fun a b => b.time - a.time ≤ LETTER_STREAK_WINDOW_MS) suf ∧
        (∃ last, suf.getLast? = some last ∧
          last.time = (es.foldl spellStep initSpellState).streak.lastTime)) := by
  refine ⟨onLetterDetected_low, ?_, ?_, streak_provenance⟩
  · intro es
    have : ∀ (l : List LetterEvent) (s : SpellState), s.streak.count ≤ 2 →
        (l.foldl spellStep s).streak.count ≤ 2 := by
      intro l
      induction l with
      | nil => intro s h; exact h
      | cons e l ih =>
        intro s h
        exact ih _ (spellStep_count_le s e h)
    exact this es initSpellState (by norm_num [initSpellState])
  · intro s label conf now hchar
    have hchar' : ¬ (charOfLabel label).length ≠ 1 := by simp [hchar]
    have hne : s.letters ≠ s.letters ++ [charOfLabel label] := by simp
    by_cases hconf : conf < SPELLING_CONFIDENCE_THRESHOLD
    · rw [onLetterDetected_low _ _ _ _ hconf]
      constructor
      · intro h
        exact absurd h hne
      · rintro ⟨hθ, -⟩
        exact absurd hθ (not_le.mpr hconf)
    · have hθ : SPELLING_CONFIDENCE_THRESHOLD ≤ conf := le_of_not_lt hconf
      by_cases hsw : label = s.streak.label ∧
          now - s.streak.lastTime ≤ LETTER_STREAK_WINDOW_MS
      · by_cases hc2 : 2 ≤ s.streak.count
        · have hge : LETTER_STREAK_REQUIRED ≤ s.streak.count + 1 := by
            unfold LETTER_STREAK_REQUIRED
            omega
          rw [onLetterDetected_fire _ _ _ _ hconf hsw hge]
          by_cases hdeb : charOfLabel label = s.lastLetter ∧
              now - s.lastLetterTime < MIN_LETTER_GAP_MS
          · rw [addLetter_debounce
              { s with streak := (⟨"", 0, now⟩ : LetterStreak) } label now
              hchar' hdeb]
            constructor
            · intro h
              exact absurd h (by simp)
            · rintro ⟨-, -, -, -, hgap⟩
              rcases hgap with hneq | hgap
              · exact absurd hdeb.1 hneq
              · have h2 := hdeb.2
                omega
          · rw [addLetter_append
              { s with streak := (⟨"", 0, now⟩ : LetterStreak) } label now
              hchar' hdeb]
            have hgap : charOfLabel label ≠ s.lastLetter ∨
                MIN_LETTER_GAP_MS ≤ now - s.lastLetterTime := by
              by_cases hl : charOfLabel label = s.lastLetter
              · right
                have hh : ¬ (now - s.lastLetterTime < MIN_LETTER_GAP_MS) :=
                  fun h => hdeb ⟨hl, h⟩
                omega
              · exact Or.inl hl
            constructor
            · intro _
              exact ⟨hθ, hsw.1, hsw.2, hc2, hgap⟩
            · intro _
              simp
        · have hlt : ¬ LETTER_STREAK_REQUIRED ≤ s.streak.count + 1 := by
            unfold LETTER_STREAK_REQUIRED
            omega
          rw [onLetterDetected_extend _ _ _ _ hconf hsw hlt]
          simp only
          constructor
          · intro h
            exact absurd h hne
          · rintro ⟨-, -, -, hc2', -⟩
            exact absurd hc2' hc2
      · rw [onLetterDetected_restart _ _ _ _ hconf hsw]
        simp only
        constructor
        · intro h
          exact absurd h hne
        · rintro ⟨-, hlab, hwin, -, -⟩
          exact (hsw ⟨hlab, hwin⟩).elim

/-- C2 witness: with a stored streak of two confident letter_a
observations (the last at time 300), a third confident letter_a at
time 600 appends the letter A. -/
theorem c2_witness :
    (charOfLabel "letter_a").length = 1 ∧
    ((onLetterDetected
        { streak := ⟨"letter_a", 2, 300⟩, lastLetter := "",
          lastLetterTime := 0, letters := [] }
        "letter_a" (4/5) 600).letters = [] ++ [charOfLabel "letter_a"] ↔
      (SPELLING_CONFIDENCE_THRESHOLD ≤ (4/5 : ℚ) ∧
       "letter_a" = "letter_a" ∧
       (600 : ℤ) - 300 ≤ LETTER_STREAK_WINDOW_MS ∧
       (2 : ℕ) ≤ 2 ∧
       (charOfLabel "letter_a" ≠ "" ∨
        MIN_LETTER_GAP_MS ≤ (600 : ℤ) - 0))) :=
  ⟨by decide,
   c2_letter_append_iff.2.2.1
     { streak := ⟨"letter_a", 2, 300⟩, lastLetter := "",
       lastLetterTime := 0, letters := [] }
     "letter_a" (4/5) 600 (by decide)⟩

/-- The step of an enabled navigator frame whose first hand carries
both tips, written out explicitly. -/
lemma updateFromHands_tracked (hitTest : ℚ → ℚ → Option String)
    (width height : ℚ) (s : NavState) (now : ℤ) (hand : HandFrame)
    (rest : List HandFrame) (indexTip thumbTip : Landmark)
    (h8 : hand.landmarks[8]? = some indexTip)
    (h4 : hand.landmarks[4]? = some thumbTip) :
    updateFromHands hitTest width height s now (hand :: rest) true =
      (let rawX := (1 - indexTip.x) * width
       let rawY := indexTip.y * height
       let cx := if s.initialised = false then rawX
                 else s.smoothX + (rawX - s.smoothX) * (1 - SMOOTH_FACTOR)
       let cy := if s.initialised = false then rawY
                 else s.smoothY + (rawY - s.smoothY) * (1 - SMOOTH_FACTOR)
       let pinch : Bool := (thumbTip.x - indexTip.x) ^ 2 +
         (thumbTip.y - indexTip.y) ^ 2 + (thumbTip.z - indexTip.z) ^ 2 <
         PINCH_THRESHOLD ^ 2
       let navTarget := hitTest cx cy
       let click : Option String :=
         if pinch && !s.wasPinching then
           if CLICK_COOLDOWN < now - s.lastClickTime && navTarget.isSome then
             navTarget
           else none
         else none
       let lastClick := if click.isSome then now else s.lastClickTime
       ({ smoothX := cx, smoothY := cy, initialised := true,
          lastClickTime := lastClick, wasPinching := pinch,
          hovered := navTarget, x := cx, y := cy, isPinching := pinch,
          isHovering := navTarget.isSome, visible := true }, click)) := by
  unfold updateFromHands
  simp only [h8, h4]
  rw [if_neg (by simp)]

/-- C8: with the first hand carrying both tips on an enabled frame, a
click on a target is synthesized exactly when the tips are pinching,
the previous frame was not pinching (a pinch-down transition), more
than 600 ms have passed since the previous click, and the hit test at
the smoothed cursor position returns that target; a synthesized click
records its time and the held pinch; any frame arriving within the
600 ms cooldown synthesizes nothing, whatever it contains; and a pinch
held across a whole run of frames synthesizes no click at all once the
pinch is already held when the run starts. -/
theorem c8_pinch_click :
    (∀ (hitTest : ℚ → ℚ → Option String) (width height : ℚ) (s : NavState)
       (now : ℤ) (hand : HandFrame) (rest : List HandFrame)
       (indexTip thumbTip : Landmark) (target : String),
      hand.landmarks[8]? = some indexTip →
      hand.landmarks[4]? = some thumbTip →
      ((updateFromHands hitTest width height s now (hand :: rest) true).2 =
          some target ↔
        ((thumbTip.x - indexTip.x) ^ 2 + (thumbTip.y - indexTip.y) ^ 2 +
            (thumbTip.z - indexTip.z) ^ 2 < PINCH_THRESHOLD ^ 2 ∧
         s.wasPinching = false ∧
         CLICK_COOLDOWN < now - s.lastClickTime ∧
         hitTest
           (if s.initialised = false then (1 - indexTip.x) * width
            else s.smoothX + ((1 - indexTip.x) * width - s.smoothX) *
              (1 - SMOOTH_FACTOR))
           (if s.initialised = false then indexTip.y * height
            else s.smoothY + (indexTip.y * height - s.smoothY) *
              (1 - SMOOTH_FACTOR)) = some target))) ∧
    (∀ (hitTest : ℚ → ℚ → Option String) (width height : ℚ) (s : NavState)
       (now : ℤ) (hands : List HandFrame) (isEnabled : Bool)
       (target : String),
      (updateFromHands hitTest width height s now hands isEnabled).2 =
          some target →
      (updateFromHands hitTest width height s now hands isEnabled).1.lastClickTime
          = now ∧
      (updateFromHands hitTest width height s now hands isEnabled).1.wasPinching
          = true) ∧
    (∀ (hitTest : ℚ → ℚ → Option String) (width height : ℚ) (s : NavState)
       (now : ℤ) (hands : List HandFrame) (isEnabled : Bool),
      now - s.lastClickTime ≤ CLICK_COOLDOWN →
      (updateFromHands hitTest width height s now hands isEnabled).2 = none) ∧
    (∀ (hitTest : ℚ → ℚ → Option String) (width height : ℚ)
       (cs : List (ℤ × List HandFrame)) (s : NavState),
      s.wasPinching = true →
      (∀ c ∈ cs, pinchingCall c) →
      (cs.foldl (navRun hitTest width height) (s, [])).2 = [] ∧
      (cs.foldl (navRun hitTest width height) (s, [])).1.wasPinching = true) := by
  have hstep : ∀ (hitTest : ℚ → ℚ → Option String) (width height : ℚ)
      (s : NavState) (now : ℤ) (hands : List HandFrame),
      s.wasPinching = true → pinchingCall (now, hands) →
      (updateFromHands hitTest width height s now hands true).2 = none ∧
      (updateFromHands hitTest width height s now hands true).1.wasPinching
        = true := by
    intro hitTest width height s now hands hw hc
    obtain ⟨hand, rest, indexTip, thumbTip, hh, h8, h4, hp⟩ := hc
    simp only at hh
    subst hh
    rw [updateFromHands_tracked hitTest width height s now hand rest
      indexTip thumbTip h8 h4]
    simp [hw, hp]
  refine ⟨?_, ?_, ?_, ?_⟩
  · intro hitTest width height s now hand rest indexTip thumbTip target h8 h4
    rw [updateFromHands_tracked hitTest width height s now hand rest
      indexTip thumbTip h8 h4]
    by_cases hp : (thumbTip.x - indexTip.x) ^ 2 + (thumbTip.y - indexTip.y) ^ 2 +
        (thumbTip.z - indexTip.z) ^ 2 < PINCH_THRESHOLD ^ 2
    · cases hwp : s.wasPinching with
      | true => simp [hp, hwp]
      | false =>
        by_cases hcd : CLICK_COOLDOWN < now - s.lastClickTime
        · cases hht : hitTest
              (if s.initialised = false then (1 - indexTip.x) * width
               else s.smoothX + ((1 - indexTip.x) * width - s.smoothX) *
                 (1 - SMOOTH_FACTOR))
              (if s.initialised = false then indexTip.y * height
               else s.smoothY + (indexTip.y * height - s.smoothY) *
                 (1 - SMOOTH_FACTOR)) with
          | none => simp [hp, hwp, hcd, hht]
          | some t => simp [hp, hwp, hcd, hht]
        · simp [hp, hwp, hcd]
    · simp [hp]
  · intro hitTest width height s now hands isEnabled target hclick
    cases hands with
    | nil => simp [updateFromHands] at hclick
    | cons hand rest =>
      cases isEnabled with
      | false => simp [updateFromHands] at hclick
      | true =>
        cases h8 : hand.landmarks[8]? with
        | none => simp [updateFromHands, h8] at hclick
        | some indexTip =>
          cases h4 : hand.landmarks[4]? with
          | none => simp [updateFromHands, h8, h4] at hclick
          | some thumbTip =>
            rw [updateFromHands_tracked hitTest width height s now hand rest
              indexTip thumbTip h8 h4] at hclick ⊢
            by_cases hp : (thumbTip.x - indexTip.x) ^ 2 +
                (thumbTip.y - indexTip.y) ^ 2 + (thumbTip.z - indexTip.z) ^ 2 <
                PINCH_THRESHOLD ^ 2
            · cases hwp : s.wasPinching with
              | true => simp [hp, hwp] at hclick
              | false =>
                by_cases hcd : CLICK_COOLDOWN < now - s.lastClickTime
                · cases hht : hitTest
                      (if s.initialised = false then (1 - indexTip.x) * width
                       else s.smoothX + ((1 - indexTip.x) * width - s.smoothX) *
                         (1 - SMOOTH_FACTOR))
                      (if s.initialised = false then indexTip.y * height
                       else s.smoothY + (indexTip.y * height - s.smoothY) *
                         (1 - SMOOTH_FACTOR)) with
                  | none => simp [hp, hwp, hcd, hht] at hclick
                  | some t => simp [hp, hwp, hcd, hht]
                · simp [hp, hwp, hcd] at hclick
            · simp [hp] at hclick
  · intro hitTest width height s now hands isEnabled hcd
    cases hands with
    | nil => rfl
    | cons hand rest =>
      cases isEnabled with
      | false => rfl
      | true =>
        cases h8 : hand.landmarks[8]? with
        | none => simp [updateFromHands, h8]
        | some indexTip =>
          cases h4 : hand.landmarks[4]? with
          | none => simp [updateFromHands, h8, h4]
          | some thumbTip =>
            rw [updateFromHands_tracked hitTest width height s now hand rest
              indexTip thumbTip h8 h4]
            have hlt : ¬ CLICK_COOLDOWN < now - s.lastClickTime := by omega
            simp [hlt]
  · intro hitTest width height cs s hw hall
    have main : ∀ (l : List (ℤ × List HandFrame)) (s0 : NavState)
        (acc : List String), s0.wasPinching = true →
        (∀ c ∈ l, pinchingCall c) →
        (l.foldl (navRun hitTest width height) (s0, acc)).2 = acc ∧
        (l.foldl (navRun hitTest width height) (s0, acc)).1.wasPinching
          = true := by
      intro l
      induction l with
      | nil => intro s0 acc hw0 _; exact ⟨rfl, hw0⟩
      | cons c l ih =>
        intro s0 acc hw0 hall0
        have hc := hall0 c (List.mem_cons_self c l)
        have h1 := hstep hitTest width height s0 c.1 c.2 hw0
          (by cases c; exact hc)
        have h2 := ih (updateFromHands hitTest width height s0 c.1 c.2 true).1
          acc h1.2 (fun c' hc' => hall0 c' (List.mem_cons_of_mem c hc'))
        simp only [List.foldl_cons, navRun, h1.1, Option.toList_none,
          List.append_nil]
        exact h2
    exact main cs s [] hw hall

/-- Pose-detector evaluations on the concrete thumbs-up hand. -/
lemma isThumbsUp_thumbsUpHand : isThumbsUp thumbsUpHand = true := by
  norm_num [isThumbsUp, thumbsUpHand]

/-- The thumbs-up hand is not a closed fist (its thumb is not curled). -/
lemma isClosedFist_thumbsUpHand : isClosedFist thumbsUpHand = false := by
  norm_num [isClosedFist, thumbsUpHand]

/-- Two thumbs-up hands are the spelling candidate. -/
lemma detect_two_thumbs :
    detectGestureTarget [thumbsUpHand, thumbsUpHand] = some .spelling := by
  simp [detectGestureTarget, isClosedFist_thumbsUpHand, isThumbsUp_thumbsUpHand]

/-- A call whose hands already show the current mode never changes the
mode. -/
lemma checkModeGesture_mode_preserved_same (s : ModeState) (now : ℤ)
    (hands : List HandFrame)
    (hdet : detectGestureTarget hands = some s.mode) :
    (checkModeGesture s now hands).mode = s.mode := by
  by_cases hcd : now - s.lastToggle < TOGGLE_COOLDOWN
  · rw [checkModeGesture_cooldown _ _ _ hcd]
    exact (clearHold_fields s).1
  · rw [checkModeGesture_same_target s now hands s.mode hcd hdet rfl]
    exact (clearHold_fields s).1

/-- Once the machine sits in the target mode, a run of frames that all
keep detecting that same target leaves the mode there. -/
lemma mode_absorb (tg : InteractionMode) :
    ∀ (cs : List (ℤ × List HandFrame)) (s : ModeState),
      s.mode = tg → (∀ c ∈ cs, detectGestureTarget c.2 = some tg) →
      (cs.foldl modeStep s).mode = tg := by
  intro cs
  induction cs with
  | nil => intro s h _; exact h
  | cons c cs ih =>
    intro s h hall
    have hdet : detectGestureTarget c.2 = some s.mode := by
      rw [h]
      exact hall c (List.mem_cons_self c cs)
    have hpres := checkModeGesture_mode_preserved_same s c.1 c.2 hdet
    simp only [List.foldl_cons]
    exact ih (modeStep s c) (by rw [modeStep, hpres, h])
      fun c' hc' => hall c' (List.mem_cons_of_mem c hc')

/-- A stored hold for tg started at time T, fed only cooldown-free
frames that keep detecting tg, commits to tg as soon as one of the
frames arrives HOLD_DURATION or later after T. -/
lemma hold_run (tg : InteractionMode) (T : ℤ) :
    ∀ (cs : List (ℤ × List HandFrame)) (s : ModeState),
      s.mode ≠ tg → s.holdStart = some T → s.holdTarget = some tg →
      (∀ c ∈ cs, detectGestureTarget c.2 = some tg ∧
        TOGGLE_COOLDOWN ≤ c.1 - s.lastToggle) →
      (∃ c ∈ cs, T + HOLD_DURATION ≤ c.1) →
      (cs.foldl modeStep s).mode = tg := by
  intro cs
  induction cs with
  | nil =>
    rintro s _ _ _ _ ⟨c, hc, -⟩
    exact absurd hc (List.not_mem_nil c)
  | cons c cs ih =>
    intro s hne hhs hht hall hex
    obtain ⟨hdet, hcdle⟩ := hall c (List.mem_cons_self c cs)
    have hcd : ¬ c.1 - s.lastToggle < TOGGLE_COOLDOWN := by omega
    have htm : s.mode ≠ tg := hne
    have hstep := checkModeGesture_continue s c.1 T c.2 tg hcd hdet
      (fun h => hne h.symm) hhs hht
    simp only [List.foldl_cons, modeStep]
    by_cases hel : HOLD_DURATION ≤ c.1 - T
    · rw [hstep, if_pos hel]
      exact mode_absorb tg cs (commitState tg c.1) rfl
        fun c' hc' => (hall c' (List.mem_cons_of_mem c hc')).1
    · rw [hstep, if_neg hel]
      refine ih _ hne rfl rfl ?_ ?_
      · intro c' hc'
        exact hall c' (List.mem_cons_of_mem c hc')
      · obtain ⟨c0, hc0, hT⟩ := hex
        rcases List.mem_cons.mp hc0 with h | h
        · subst h
          omega
        · exact ⟨c0, h, hT⟩

/-- If a call leaves a stored hold behind, it detected a valid target
distinct from the (unchanged) mode, and the stored start is either this
very call or was already stored for the same target. -/
lemma holdStart_step (s : ModeState) (now : ℤ) (hands : List HandFrame)
    (t0 : ℤ) (tg : InteractionMode)
    (hhs : (checkModeGesture s now hands).holdStart = some t0)
    (hht : (checkModeGesture s now hands).holdTarget = some tg) :
    detectGestureTarget hands = some tg ∧ tg ≠ s.mode ∧
    (checkModeGesture s now hands).mode = s.mode ∧
    (t0 = now ∨ (s.holdStart = some t0 ∧ s.holdTarget = some tg)) := by
  by_cases hcd : now - s.lastToggle < TOGGLE_COOLDOWN
  · rw [checkModeGesture_cooldown _ _ _ hcd] at hhs
    rw [(clearHold_fields s).2.2.1] at hhs
    exact absurd hhs (by simp)
  · cases hdet : detectGestureTarget hands with
    | none =>
      rw [checkModeGesture_no_target s now hands hcd hdet] at hhs
      rw [(clearHold_fields s).2.2.1] at hhs
      exact absurd hhs (by simp)
    | some target =>
      by_cases htm : target = s.mode
      · rw [checkModeGesture_same_target s now hands target hcd hdet htm] at hhs
        rw [(clearHold_fields s).2.2.1] at hhs
        exact absurd hhs (by simp)
      · by_cases hcont : s.holdTarget = some target ∧ ∃ t1, s.holdStart = some t1
        · obtain ⟨hht1, t1, hhs1⟩ := hcont
          rw [checkModeGesture_continue s now t1 hands target hcd hdet htm
            hhs1 hht1] at hhs hht ⊢
          by_cases hel : HOLD_DURATION ≤ now - t1
          · rw [if_pos hel] at hhs
            exact absurd hhs (by simp [commitState])
          · rw [if_neg hel] at hhs hht ⊢
            simp only at hhs hht
            have ht0 : t0 = t1 := (Option.some.inj hhs).symm
            have htg : tg = target := (Option.some.inj hht).symm
            subst ht0
            subst htg
            exact ⟨rfl, htm, rfl, Or.inr ⟨hhs1, hht1⟩⟩
        · have hfresh : s.holdStart = none ∨ s.holdTarget ≠ some target := by
            rcases hhs2 : s.holdStart with _ | t1
            · exact Or.inl rfl
            · exact Or.inr fun hh => hcont ⟨hh, t1, hhs2⟩
          rw [checkModeGesture_restart s now hands target hcd hdet htm
            hfresh] at hhs hht ⊢
          simp only at hhs hht
          have ht0 : t0 = now := (Option.some.inj hhs).symm
          have htg : tg = target := (Option.some.inj hht).symm
          subst ht0
          subst htg
          exact ⟨rfl, htm, rfl, Or.inl rfl⟩

/-- A hold stored after a strictly time-ordered run marks the start of
an uninterrupted detection of its target: some call at exactly the
stored time detected the target, and every call from that time on
detected it as well; the target still differs from the current mode. -/
lemma holdStart_provenance (s0 : ModeState) :
    ∀ (cs : List (ℤ × List HandFrame)),
      s0.holdStart = none →
      List.Pairwise (fun a b => a.1 < b.1) cs →
      ∀ t0 tg, (cs.foldl modeStep s0).holdStart = some t0 →
        (cs.foldl modeStep s0).holdTarget = some tg →
        tg ≠ (cs.foldl modeStep s0).mode ∧
        (∃ c ∈ cs, c.1 = t0 ∧ detectGestureTarget c.2 = some tg) ∧
        (∀ c ∈ cs, t0 ≤ c.1 → detectGestureTarget c.2 = some tg) := by
  intro cs
  induction cs using List.reverseRecOn with
  | nil =>
    intro h0 _ t0 tg hhs _
    rw [List.foldl_nil] at hhs
    rw [h0] at hhs
    exact absurd hhs (by simp)
  | append_singleton cs c ih =>
    intro h0 hpw t0 tg hhs hht
    obtain ⟨hpw_cs, -, hcross⟩ := List.pairwise_append.mp hpw
    have hcross' : ∀ a ∈ cs, a.1 < c.1 := fun a ha =>
      hcross a ha c (List.mem_singleton_self c)
    rw [List.foldl_append, List.foldl_cons, List.foldl_nil] at hhs hht ⊢
    simp only [modeStep] at hhs hht ⊢
    obtain ⟨hdet, hne, hmode, hor⟩ :=
      holdStart_step (cs.foldl modeStep s0) c.1 c.2 t0 tg hhs hht
    rcases hor with h | ⟨hhs1, hht1⟩
    · subst h
      refine ⟨by rw [hmode]; exact hne, ⟨c, by simp, rfl, hdet⟩, ?_⟩
      intro c' hc' hle
      rcases List.mem_append.mp hc' with h | h
      · exact absurd hle (by have := hcross' c' h; omega)
      · rw [List.mem_singleton.mp h]
        exact hdet
    · obtain ⟨hne0, ⟨c1, hc1, ht1, hdet1⟩, hall⟩ :=
        ih h0 hpw_cs t0 tg hhs1 hht1
      refine ⟨by rw [hmode]; exact hne, ⟨c1, List.mem_append_left _ hc1, ht1, hdet1⟩, ?_⟩
      intro c' hc' hle
      rcases List.mem_append.mp hc' with h | h
      · exact hall c' h hle
      · rw [List.mem_singleton.mp h]
        exact hdet

/-- C3 counterexample: from the hook's initial state (lastToggleRef is
initialised to 0, the mode is sign), two calls at times 0 and 1000 both
detect the spelling candidate — the same candidate target, different
from the current mode, detected continuously over 1000 contiguous
milliseconds, which is the full hold duration.  The claim then demands
a committed switch, but both calls fall inside the initial 1500 ms
cooldown window (now - lastToggleRef < 1500), so the machine stays in
sign mode: the commit direction of the claimed equivalence is false. -/
theorem c3_counterexample :
    detectGestureTarget [thumbsUpHand, thumbsUpHand] = some .spelling ∧
    (initModeState .sign).mode = .sign ∧
    InteractionMode.spelling ≠ .sign ∧
    (1000 : ℤ) - 0 ≥ HOLD_DURATION ∧
    (modeStep (modeStep (initModeState .sign)
        (0, [thumbsUpHand, thumbsUpHand]))
      (1000, [thumbsUpHand, thumbsUpHand])).mode = .sign := by
  have e1 : modeStep (initModeState .sign) (0, [thumbsUpHand, thumbsUpHand]) =
      initModeState .sign := by
    show checkModeGesture (initModeState .sign) 0 [thumbsUpHand, thumbsUpHand] =
      initModeState .sign
    rw [checkModeGesture_cooldown _ _ _ (by norm_num [initModeState, TOGGLE_COOLDOWN])]
    exact clearHold_of_none _ rfl
  have e2 : modeStep (initModeState .sign) (1000, [thumbsUpHand, thumbsUpHand]) =
      initModeState .sign := by
    show checkModeGesture (initModeState .sign) 1000 [thumbsUpHand, thumbsUpHand] =
      initModeState .sign
    rw [checkModeGesture_cooldown _ _ _ (by norm_num [initModeState, TOGGLE_COOLDOWN])]
    exact clearHold_of_none _ rfl
  refine ⟨detect_two_thumbs, rfl, by simp, by norm_num [HOLD_DURATION], ?_⟩
  rw [e1, e2]
  rfl

/-- C3 (amended): provided the toggle cooldown is inactive, a mode
switch commits at a call exactly when the stored hold for the detected
candidate (different from the current mode) started at least 1000 ms
before the call; over a strictly time-ordered run of calls the stored
hold start marks an uninterrupted detection of the same candidate since
that time, so a commit certifies 1000 contiguous milliseconds of
continuous detection; conversely a cooldown-free run that keeps
detecting the same candidate for at least 1000 ms from its first call
does commit; and a frame on which the candidate disappears or equals
the current mode clears the hold (progress 0), while a frame whose
candidate differs from the stored hold target restarts the hold at that
frame with progress 0. -/
theorem c3_hold_to_confirm :
    (∀ (s : ModeState) (now : ℤ) (hands : List HandFrame),
      (checkModeGesture s now hands).mode ≠ s.mode ↔
        (TOGGLE_COOLDOWN ≤ now - s.lastToggle ∧
         ∃ tg, detectGestureTarget hands = some tg ∧ tg ≠ s.mode ∧
           s.holdTarget = some tg ∧
           ∃ t0, s.holdStart = some t0 ∧ HOLD_DURATION ≤ now - t0)) ∧
    (∀ (s0 : ModeState) (cs : List (ℤ × List HandFrame)),
      s0.holdStart = none →
      List.Pairwise (fun a b => a.1 < b.1) cs →
      ∀ t0 tg, (cs.foldl modeStep s0).holdStart = some t0 →
        (cs.foldl modeStep s0).holdTarget = some tg →
        tg ≠ (cs.foldl modeStep s0).mode ∧
        (∃ c ∈ cs, c.1 = t0 ∧ detectGestureTarget c.2 = some tg) ∧
        (∀ c ∈ cs, t0 ≤ c.1 → detectGestureTarget c.2 = some tg)) ∧
    (∀ (s : ModeState) (now : ℤ) (hands : List HandFrame),
      ¬ now - s.lastToggle < TOGGLE_COOLDOWN →
      ((detectGestureTarget hands = none ∨
          detectGestureTarget hands = some s.mode) →
        (checkModeGesture s now hands).holdStart = none ∧
        (s.holdStart.isSome → (checkModeGesture s now hands).holdProgress = 0)) ∧
      (∀ t, detectGestureTarget hands = some t → t ≠ s.mode →
        s.holdTarget ≠ some t →
        (checkModeGesture s now hands).holdStart = some now ∧
        (checkModeGesture s now hands).holdProgress = 0)) ∧
    (∀ (s : ModeState) (tg : InteractionMode) (t1 : ℤ)
       (h1 : List HandFrame) (rest : List (ℤ × List HandFrame)),
      s.holdStart = none → tg ≠ s.mode →
      (∀ c ∈ (t1, h1) :: rest, detectGestureTarget c.2 = some tg ∧
        TOGGLE_COOLDOWN ≤ c.1 - s.lastToggle) →
      (∃ c ∈ (t1, h1) :: rest, t1 + HOLD_DURATION ≤ c.1) →
      (((t1, h1) :: rest).foldl modeStep s).mode = tg) := by
  refine ⟨fun s now hands => (checkModeGesture_commit_iff s now hands).1,
    holdStart_provenance, ?_, ?_⟩
  · intro s now hands hcd
    constructor
    · intro hdet
      rcases hdet with hdet | hdet
      · rw [checkModeGesture_no_target s now hands hcd hdet]
        have h := clearHold_fields s
        exact ⟨h.2.2.1, fun hs => (h.2.2.2 hs).2.1⟩
      · rw [checkModeGesture_same_target s now hands s.mode hcd hdet rfl]
        have h := clearHold_fields s
        exact ⟨h.2.2.1, fun hs => (h.2.2.2 hs).2.1⟩
    · intro t hdet htm hfresh
      rw [checkModeGesture_restart s now hands t hcd hdet htm (Or.inr hfresh)]
      exact ⟨rfl, rfl⟩
  · intro s tg t1 h1 rest hhs htm hall hex
    obtain ⟨hdet1, hcd1⟩ := hall (t1, h1) (List.mem_cons_self _ _)
    have hcd1' : ¬ t1 - s.lastToggle < TOGGLE_COOLDOWN := by omega
    have hstep := checkModeGesture_restart s t1 h1 tg hcd1' hdet1
      htm (Or.inl hhs)
    simp only [List.foldl_cons, modeStep]
    rw [hstep]
    refine hold_run tg t1 rest _ (fun h => htm h.symm) rfl rfl ?_ ?_
    · intro c hc
      exact hall c (List.mem_cons_of_mem _ hc)
    · obtain ⟨c0, hc0, hT⟩ := hex
      rcases List.mem_cons.mp hc0 with h | h
      · subst h
        simp only at hT
        exact absurd hT (by norm_num [HOLD_DURATION])
      · exact ⟨c0, h, hT⟩

/-- C3 witness: from a state whose cooldown has fully expired, two
calls detecting the spelling candidate at times 1500 and 2600 (a
1100 ms continuous detection) commit the switch to spelling. -/
theorem c3_witness :
    ((initModeState .sign).holdStart = none) ∧
    (InteractionMode.spelling ≠ (initModeState .sign).mode) ∧
    (∀ c ∈ [((1500 : ℤ), [thumbsUpHand, thumbsUpHand]),
        ((2600 : ℤ), [thumbsUpHand, thumbsUpHand])],
      detectGestureTarget c.2 = some .spelling ∧
      TOGGLE_COOLDOWN ≤ c.1 - (initModeState .sign).lastToggle) ∧
    ([((1500 : ℤ), [thumbsUpHand, thumbsUpHand]),
      ((2600 : ℤ), [thumbsUpHand, thumbsUpHand])].foldl modeStep
        (initModeState .sign)).mode = .spelling := by
  have hall : ∀ c ∈ [((1500 : ℤ), [thumbsUpHand, thumbsUpHand]),
      ((2600 : ℤ), [thumbsUpHand, thumbsUpHand])],
      detectGestureTarget c.2 = some .spelling ∧
      TOGGLE_COOLDOWN ≤ c.1 - (initModeState .sign).lastToggle := by
    intro c hc
    fin_cases hc <;>
      exact ⟨detect_two_thumbs, by norm_num [initModeState, TOGGLE_COOLDOWN]⟩
  refine ⟨rfl, by simp [initModeState], hall, ?_⟩
  exact c3_hold_to_confirm.2.2.2 (initModeState .sign) .spelling 1500
    [thumbsUpHand, thumbsUpHand] [((2600 : ℤ), [thumbsUpHand, thumbsUpHand])]
    rfl (by simp [initModeState]) hall
    ⟨((2600 : ℤ), [thumbsUpHand, thumbsUpHand]), by simp,
      by norm_num [HOLD_DURATION]⟩

/-- C8 witness: a pinch with coinciding tips, hovering a constant
target, 1000 ms after the last click, synthesizes exactly the click on
that target. -/
theorem c8_witness :
    pinchHand.landmarks[8]? = some ⟨1, 1, 0⟩ ∧
    pinchHand.landmarks[4]? = some ⟨1, 1, 0⟩ ∧
    (updateFromHands (fun _ _ => some "btn") 100 100 initNavState 1000
        [pinchHand] true).2 = some "btn" := by
  have h8 : pinchHand.landmarks[8]? = some ⟨1, 1, 0⟩ := by
    norm_num [pinchHand]
  have h4 : pinchHand.landmarks[4]? = some ⟨1, 1, 0⟩ := by
    norm_num [pinchHand]
  refine ⟨h8, h4, ?_⟩
  refine (c8_pinch_click.1 (fun _ _ => some "btn") 100 100 initNavState 1000
    pinchHand [] ⟨1, 1, 0⟩ ⟨1, 1, 0⟩ "btn" h8 h4).mpr ⟨?_, rfl, ?_, rfl⟩
  · norm_num [PINCH_THRESHOLD]
  · norm_num [CLICK_COOLDOWN, initNavState]

end SignAssist
